import Mathlib

/-!
Verification of the bulk draft-creation endpoint (`zerver/views/drafts.py`):
the structural shape of draft descriptors, the per-descriptor
normalization/resolution pipeline (`further_validated_draft_dict`) and the
all-or-nothing batch creation (`create_drafts`).

Strings from the wire are modelled as `List Char`; timestamps as rationals
(Python floats carrying Unix seconds); user, stream and recipient references
as integers.  External collaborators that are not part of this repository
(text truncation, stream access, the user directory, recipient derivation,
the persistence store) are modelled from the spec as fields of an
environment record `Env`.
-/

deriving instance DecidableEq for Except

/-- The null character `"\x00"` that content and topic must not contain. -/
def nullChar : Char := Char.ofNat 0

/-- Round the fraction `num / den` (with `den > 0`) to the nearest integer,
ties to even: the behaviour of Python's builtin `round` on exact values.
`f` is the floor of the fraction and `r2` twice its fractional remainder
scaled by `den`, so `r2 < den` means the fractional part is below one half. -/
def roundHalfEven (num den : ℤ) : ℤ :=
  let f : ℤ := num.fdiv den
  let r2 : ℤ := 2 * (num - f * den)
  if r2 < den then f
  else if den < r2 then f + 1
  else if f % 2 = 0 then f else f + 1

/-- Python's `round(x, 6)`: microsecond precision, as used on draft
timestamps.  `q * 10^6` is the fraction `q.num * 10^6 / q.den`. -/
def round6 (q : ℚ) : ℚ :=
  mkRat (roundHalfEven (q.num * 1000000) q.den) 1000000

/-- Modelled from the spec: `timestamp_to_datetime` (zerver/lib/timestamp.py,
not under src/) converts a Unix timestamp to an absolute point-in-time value
for storage; the conversion is lossless, so it is modelled as the identity on
rational Unix seconds. -/
def timestamp_to_datetime (t : ℚ) : ℚ := t

/-- A draft descriptor after the structural validator
(`draft_dict_validator`) has accepted it: `type` is a string, `to` a list of
integer IDs, `topic` and `content` strings, `timestamp` an optional number. -/
structure DraftDict where
  type : String
  «to» : List ℤ
  topic : List Char
  content : List Char
  timestamp : Option ℚ
deriving DecidableEq

/-- The constraints of `draft_dict_validator` that its field types do not
already enforce: `type` is one of the three allowed literals and `content`
is a non-empty string (`check_required_string`). -/
def structurally_valid (d : DraftDict) : Prop :=
  (d.type = "" ∨ d.type = "private" ∨ d.type = "stream") ∧ d.content ≠ []

instance (d : DraftDict) : Decidable (structurally_valid d) := by
  unfold structurally_valid; infer_instance

/-- The normalized record produced by `further_validated_draft_dict`, whose
values can be used directly to create a `Draft` row. -/
structure ValidatedDraft where
  recipient : Option ℤ
  topic : List Char
  content : List Char
  last_edit_time : ℚ
deriving DecidableEq

/-- A persisted `Draft` entity (zerver/models.py): owner, resolved recipient
(nullable), topic, content, last edit time. -/
structure Draft where
  user_profile : ℤ
  recipient : Option ℤ
  topic : List Char
  content : List Char
  last_edit_time : ℚ
deriving DecidableEq

/-- The external collaborators of the endpoint, modelled from the spec:
text-limit providers backing `truncate_body`/`truncate_topic`, the current
clock, the stream directory with its access control, the user directory,
the recipient deriver `recipient_for_user_profiles`, and the id sequence of
the persistence store. -/
structure Env where
  MAX_MESSAGE_LENGTH : ℕ
  MAX_TOPIC_NAME_LENGTH : ℕ
  now : ℚ
  stream_exists : ℤ → Bool
  stream_accessible : ℤ → Bool
  stream_recipient : ℤ → ℤ
  user_visible : ℤ → Bool
  recipient_for_user_profiles : List ℤ → ℤ → Except String ℤ
  next_id : ℤ

/-- Modelled from the spec: `truncate_body` (zerver/lib/message.py, not under
src/) truncates content to the platform's maximum content length. -/
def truncate_body (env : Env) (body : List Char) : List Char :=
  body.take env.MAX_MESSAGE_LENGTH

/-- Modelled from the spec: `truncate_topic` (zerver/lib/message.py, not
under src/) truncates a topic to the platform's maximum topic length. -/
def truncate_topic (env : Env) (topic : List Char) : List Char :=
  topic.take env.MAX_TOPIC_NAME_LENGTH

/-- Modelled from the spec: `access_stream_by_id` (zerver/lib/streams.py, not
under src/) resolves a stream ID to its recipient, failing with
"Invalid stream id" both when the stream does not exist and when the
requester lacks access. -/
def access_stream_by_id (env : Env) (stream_id : ℤ) : Except String ℤ :=
  if env.stream_exists stream_id && env.stream_accessible stream_id then
    Except.ok (env.stream_recipient stream_id)
  else
    Except.error "Invalid stream id"

/-- Python's `set(to)` materialised in iteration order: keep the first
occurrence of each ID, drop later duplicates. -/
def pydedupAux : List ℤ → List ℤ → List ℤ
  | _, [] => []
  | seen, x :: xs =>
    if x ∈ seen then pydedupAux seen xs
    else x :: pydedupAux (x :: seen) xs

/-- Deduplicate a list of IDs keeping first occurrences (`set(to)`). -/
def pydedup (l : List ℤ) : List ℤ := pydedupAux [] l

/-- Modelled from the spec: `get_user_profiles_by_ids`
(zerver/lib/addressee.py, not under src/) resolves each ID via the user
directory and fails with "Invalid user ID <id>" at the first ID that does
not denote a visible user. -/
def get_user_profiles_by_ids (visible : ℤ → Bool) : List ℤ → Except String (List ℤ)
  | [] => Except.ok []
  | x :: xs =>
    if visible x then
      match get_user_profiles_by_ids visible xs with
      | Except.ok us => Except.ok (x :: us)
      | Except.error e => Except.error e
    else
      Except.error ("Invalid user ID " ++ toString x)

/-- The timestamp value `further_validated_draft_dict` starts from:
`draft_dict.get("timestamp", time.time())`. -/
def suppliedTimestamp (env : Env) (d : DraftDict) : ℚ :=
  match d.timestamp with
  | some t => t
  | none => env.now

/-- `further_validated_draft_dict` (zerver/views/drafts.py): sanitize,
validate and transform one structurally-valid draft descriptor into a
record ready for persistence, raising a user-facing error on the first
violation. -/
def further_validated_draft_dict (env : Env) (draft_dict : DraftDict)
    (user_profile : ℤ) : Except String ValidatedDraft :=
  let content := truncate_body env draft_dict.content
  if nullChar ∈ content then
    Except.error "Content must not contain null bytes"
  else
    let timestamp := round6 (suppliedTimestamp env draft_dict)
    if timestamp < 0 then
      Except.error "Timestamp must not be negative."
    else
      let last_edit_time := timestamp_to_datetime timestamp
      let «to» := draft_dict.to
      if draft_dict.type = "stream" then
        let topic := truncate_topic env draft_dict.topic
        if nullChar ∈ topic then
          Except.error "Topic must not contain null bytes"
        else if «to».length ≠ 1 then
          Except.error "Must specify exactly 1 stream ID for stream messages"
        else
          match access_stream_by_id env «to».headI with
          | Except.error e => Except.error e
          | Except.ok recipient =>
            Except.ok ⟨some recipient, topic, content, last_edit_time⟩
      else if draft_dict.type = "private" ∧ «to».length ≠ 0 then
        match get_user_profiles_by_ids env.user_visible (pydedup «to») with
        | Except.error e => Except.error e
        | Except.ok to_users =>
          match env.recipient_for_user_profiles to_users user_profile with
          | Except.error e => Except.error e
          | Except.ok recipient =>
            Except.ok ⟨some recipient, [], content, last_edit_time⟩
      else
        Except.ok ⟨none, [], content, last_edit_time⟩

/-- The loop of `create_drafts`: normalize each descriptor in input order,
propagating the first error. -/
def further_all (env : Env) (user_profile : ℤ) :
    List DraftDict → Except String (List ValidatedDraft)
  | [] => Except.ok []
  | d :: ds =>
    match further_validated_draft_dict env d user_profile with
    | Except.error e => Except.error e
    | Except.ok v =>
      match further_all env user_profile ds with
      | Except.error e => Except.error e
      | Except.ok vs => Except.ok (v :: vs)

/-- Modelled from the spec: `Draft.objects.bulk_create` (the persistence
store, not under src/) inserts the batch atomically and assigns each row the
next generated identifier in order. -/
def bulk_create : ℤ → List Draft → List (ℤ × Draft)
  | _, [] => []
  | n, d :: ds => (n, d) :: bulk_create (n + 1) ds

/-- `create_drafts` (zerver/views/drafts.py): normalize every descriptor of
the batch, then persist all resulting drafts in one atomic batch write owned
by the requesting user, and answer with the generated ids in input order.
The result pairs the persisted rows (with their ids) with the response ids;
an error means the request aborted and nothing was persisted. -/
def create_drafts (env : Env) (user_profile : ℤ) (draft_dicts : List DraftDict) :
    Except String (List (ℤ × Draft) × List ℤ) :=
  match further_all env user_profile draft_dicts with
  | Except.error e => Except.error e
  | Except.ok valid_draft_dicts =>
    let draft_objects := valid_draft_dicts.map (fun v =>
      Draft.mk user_profile v.recipient v.topic v.content v.last_edit_time)
    let created_draft_objects := bulk_create env.next_id draft_objects
    Except.ok (created_draft_objects, created_draft_objects.map Prod.fst)

/-- The rows visible in the store after a request: the created batch on
success, nothing on an error (the batch write is atomic and only reached
when every descriptor normalized). -/
def persisted_drafts (r : Except String (List (ℤ × Draft) × List ℤ)) :
    List (ℤ × Draft) :=
  match r with
  | Except.ok (created, _) => created
  | Except.error _ => []

/-- The response ids of a successful request, `[]` on an error. -/
def response_ids (r : Except String (List (ℤ × Draft) × List ℤ)) : List ℤ :=
  match r with
  | Except.ok (_, ids) => ids
  | Except.error _ => []

/-- A small concrete deployment used to evaluate the endpoint on explicit
inputs: content limit 5, topic limit 3, clock at 100, a single stream 10
that exists and is accessible, users 0..49 visible, a recipient deriver
that never fails, id sequence starting at 7. -/
def sampleEnv : Env where
  MAX_MESSAGE_LENGTH := 5
  MAX_TOPIC_NAME_LENGTH := 3
  now := 100
  stream_exists := fun i => i = 10
  stream_accessible := fun i => i = 10
  stream_recipient := fun i => i + 1000
  user_visible := fun i => i < 50
  recipient_for_user_profiles := fun us _ => Except.ok (us.foldl (fun a b => a + b) 0)
  next_id := 7

/-- A valid stream-type descriptor for stream 10. -/
def sampleStreamDraft : DraftDict := ⟨"stream", [10], ['t'], ['h', 'i'], some 5⟩

/-- A valid private-type descriptor to users 3 and 4 (4 repeated). -/
def samplePrivateDraft : DraftDict :=
  ⟨"private", [3, 4, 4], ['x'], ['h', 'i'], some 5⟩

/-- A descriptor whose content holds a null byte within the content limit. -/
def sampleNullContentDraft : DraftDict :=
  ⟨"", [], [], ['h', nullChar], some 5⟩

/-- A descriptor with the negative supplied timestamp `-1/10^7`, which
rounds to `0` at microsecond precision. -/
def sampleNegMicroDraft : DraftDict :=
  ⟨"", [], [], ['a'], some (mkRat (-1) 10000000)⟩

/-- The sequence of identifiers a batch insert of `count` rows receives when
the store's id sequence stands at `n`. -/
def generated_ids (n : ℤ) (count : ℕ) : List ℤ :=
  (List.range count).map (fun (i : ℕ) => n + (i : ℤ))

/-- A descriptor with supplied timestamp `-3`, rejected as negative. -/
def sampleNegTsDraft : DraftDict := ⟨"", [], [], ['a'], some (-3)⟩

def sampleEmptyDraft : DraftDict := ⟨"", [], ['s'], ['o', 'k'], some 5⟩

def sampleTopicNullStreamDraft : DraftDict :=
  ⟨"stream", [10], ['a', nullChar], ['h', 'i'], some 5⟩

def sampleTwoStreamDraft : DraftDict := ⟨"stream", [10, 11], ['t'], ['h', 'i'], some 5⟩

def sampleBadStreamDraft : DraftDict := ⟨"stream", [11], ['t'], ['h', 'i'], some 5⟩

def sampleInvalidUserDraft : DraftDict :=
  ⟨"private", [3, 99, 98], ['x'], ['h', 'i'], some 5⟩

def sampleNullTopicPrivateDraft : DraftDict :=
  ⟨"private", [3], ['a', nullChar], ['h', 'i'], some 5⟩

def sampleEmptyTypeToDraft : DraftDict := ⟨"", [99], ['q'], ['o', 'k'], some 5⟩

def sampleEnvAlt : Env where
  MAX_MESSAGE_LENGTH := 5
  MAX_TOPIC_NAME_LENGTH := 9
  now := 100
  stream_exists := fun _ => false
  stream_accessible := fun _ => false
  stream_recipient := fun i => i
  user_visible := fun _ => false
  recipient_for_user_profiles := fun _ _ => Except.error "cannot send"
  next_id := 1000


lemma invalid_user_msg_head (s : String) :
    ("Invalid user ID " ++ s).data.head? = some 'I' := by
  rw [String.data_append]
  rfl

lemma invalid_user_msg_ne_of_head {m : String} (hm : m.data.head? ≠ some 'I')
    (s : String) : "Invalid user ID " ++ s ≠ m := by
  intro h
  exact hm (h ▸ invalid_user_msg_head s)

example (s : String) : "Invalid user ID " ++ s ≠ "Content must not contain null bytes" :=
  invalid_user_msg_ne_of_head (by decide) s

lemma find?_pydedupAux (p : ℤ → Bool) (seen : List ℤ)
    (h : ∀ s ∈ seen, p s = false) (xs : List ℤ) :
    (pydedupAux seen xs).find? p = xs.find? p := by
  induction xs generalizing seen with
  | nil => rfl
  | cons x xs ih =>
    unfold pydedupAux
    by_cases hx : x ∈ seen
    · rw [if_pos hx, ih seen h, List.find?_cons, h x hx]
    · rw [if_neg hx]
      rw [List.find?_cons, List.find?_cons]
      cases hpx : p x with
      | true => rfl
      | false =>
        exact ih (x :: seen) (by
          intro s hs
          rcases List.mem_cons.mp hs with rfl | hs2
          · exact hpx
          · exact h s hs2)

lemma find?_pydedup (p : ℤ → Bool) (l : List ℤ) :
    (pydedup l).find? p = l.find? p :=
  find?_pydedupAux p [] (by simp) l

lemma mem_pydedupAux (y : ℤ) (seen xs : List ℤ) :
    y ∈ pydedupAux seen xs ↔ y ∈ xs ∧ y ∉ seen := by
  induction xs generalizing seen with
  | nil => simp [pydedupAux]
  | cons x xs ih =>
    unfold pydedupAux
    by_cases hx : x ∈ seen
    · rw [if_pos hx, ih]
      simp only [List.mem_cons]
      constructor
      · rintro ⟨h1, h2⟩
        exact ⟨Or.inr h1, h2⟩
      · rintro ⟨rfl | h1, h2⟩
        · exact absurd hx h2
        · exact ⟨h1, h2⟩
    · rw [if_neg hx]
      simp only [List.mem_cons, ih]
      constructor
      · rintro (rfl | ⟨h1, h2⟩)
        · exact ⟨Or.inl rfl, hx⟩
        · exact ⟨Or.inr h1, fun hc => h2 (Or.inr hc)⟩
      · rintro ⟨rfl | h1, h2⟩
        · exact Or.inl rfl
        · by_cases hyx : y = x
          · exact Or.inl hyx
          · exact Or.inr ⟨h1, fun hc => hc.elim hyx h2⟩

lemma mem_pydedup (y : ℤ) (l : List ℤ) : y ∈ pydedup l ↔ y ∈ l := by
  rw [pydedup, mem_pydedupAux]; simp

lemma get_user_profiles_by_ids_ok (visible : ℤ → Bool) (l : List ℤ)
    (h : ∀ x ∈ l, visible x = true) :
    get_user_profiles_by_ids visible l = Except.ok l := by
  induction l with
  | nil => rfl
  | cons x xs ih =>
    unfold get_user_profiles_by_ids
    rw [if_pos (h x (List.mem_cons_self x xs)), ih (fun y hy => h y (List.mem_cons_of_mem x hy))]

lemma get_user_profiles_by_ids_error (visible : ℤ → Bool) (l : List ℤ) (bad : ℤ)
    (h : l.find? (fun x => !visible x) = some bad) :
    get_user_profiles_by_ids visible l =
      Except.error ("Invalid user ID " ++ toString bad) := by
  induction l with
  | nil => simp at h
  | cons x xs ih =>
    rw [List.find?_cons] at h
    unfold get_user_profiles_by_ids
    cases hvx : visible x with
    | false =>
      rw [hvx] at h
      simp at h
      subst h
      rw [if_neg (by simp)]
    | true =>
      rw [hvx] at h
      simp at h
      rw [if_pos rfl, ih h]

lemma fvdd_content_null (env : Env) (d : DraftDict) (up : ℤ)
    (h : nullChar ∈ truncate_body env d.content) :
    further_validated_draft_dict env d up =
      Except.error "Content must not contain null bytes" := by
  unfold further_validated_draft_dict
  rw [if_pos h]

lemma fvdd_ts_neg (env : Env) (d : DraftDict) (up : ℤ)
    (h1 : nullChar ∉ truncate_body env d.content)
    (h2 : round6 (suppliedTimestamp env d) < 0) :
    further_validated_draft_dict env d up =
      Except.error "Timestamp must not be negative." := by
  unfold further_validated_draft_dict
  rw [if_neg h1, if_pos h2]

lemma fvdd_stream_topic_null (env : Env) (d : DraftDict) (up : ℤ)
    (h1 : nullChar ∉ truncate_body env d.content)
    (h2 : ¬ round6 (suppliedTimestamp env d) < 0)
    (ht : d.type = "stream")
    (h3 : nullChar ∈ truncate_topic env d.topic) :
    further_validated_draft_dict env d up =
      Except.error "Topic must not contain null bytes" := by
  unfold further_validated_draft_dict
  rw [if_neg h1, if_neg h2, if_pos ht, if_pos h3]

lemma fvdd_stream_card (env : Env) (d : DraftDict) (up : ℤ)
    (h1 : nullChar ∉ truncate_body env d.content)
    (h2 : ¬ round6 (suppliedTimestamp env d) < 0)
    (ht : d.type = "stream")
    (h3 : nullChar ∉ truncate_topic env d.topic)
    (h4 : d.to.length ≠ 1) :
    further_validated_draft_dict env d up =
      Except.error "Must specify exactly 1 stream ID for stream messages" := by
  unfold further_validated_draft_dict
  rw [if_neg h1, if_neg h2, if_pos ht, if_neg h3, if_pos h4]

lemma fvdd_stream_resolve (env : Env) (d : DraftDict) (up : ℤ)
    (h1 : nullChar ∉ truncate_body env d.content)
    (h2 : ¬ round6 (suppliedTimestamp env d) < 0)
    (ht : d.type = "stream")
    (h3 : nullChar ∉ truncate_topic env d.topic)
    (h4 : ¬ d.to.length ≠ 1) :
    further_validated_draft_dict env d up =
      match access_stream_by_id env d.to.headI with
      | Except.error e => Except.error e
      | Except.ok recipient =>
        Except.ok ⟨some recipient, truncate_topic env d.topic,
          truncate_body env d.content,
          timestamp_to_datetime (round6 (suppliedTimestamp env d))⟩ := by
  unfold further_validated_draft_dict
  rw [if_neg h1, if_neg h2, if_pos ht, if_neg h3, if_neg h4]

lemma fvdd_private_resolve (env : Env) (d : DraftDict) (up : ℤ)
    (h1 : nullChar ∉ truncate_body env d.content)
    (h2 : ¬ round6 (suppliedTimestamp env d) < 0)
    (ht : d.type ≠ "stream")
    (hp : d.type = "private" ∧ d.to.length ≠ 0) :
    further_validated_draft_dict env d up =
      match get_user_profiles_by_ids env.user_visible (pydedup d.to) with
      | Except.error e => Except.error e
      | Except.ok to_users =>
        match env.recipient_for_user_profiles to_users up with
        | Except.error e => Except.error e
        | Except.ok recipient =>
          Except.ok ⟨some recipient, [], truncate_body env d.content,
            timestamp_to_datetime (round6 (suppliedTimestamp env d))⟩ := by
  unfold further_validated_draft_dict
  rw [if_neg h1, if_neg h2, if_neg ht, if_pos hp]

lemma fvdd_null_branch (env : Env) (d : DraftDict) (up : ℤ)
    (h1 : nullChar ∉ truncate_body env d.content)
    (h2 : ¬ round6 (suppliedTimestamp env d) < 0)
    (ht : d.type ≠ "stream")
    (hp : ¬ (d.type = "private" ∧ d.to.length ≠ 0)) :
    further_validated_draft_dict env d up =
      Except.ok ⟨none, [], truncate_body env d.content,
        timestamp_to_datetime (round6 (suppliedTimestamp env d))⟩ := by
  unfold further_validated_draft_dict
  rw [if_neg h1, if_neg h2, if_neg ht, if_neg hp]

lemma get_user_profiles_by_ids_error_shape (visible : ℤ → Bool) (l : List ℤ)
    (e : String) (h : get_user_profiles_by_ids visible l = Except.error e) :
    ∃ x, x ∈ l ∧ visible x = false ∧ e = "Invalid user ID " ++ toString x := by
  induction l with
  | nil => simp [get_user_profiles_by_ids] at h
  | cons x xs ih =>
    unfold get_user_profiles_by_ids at h
    by_cases hv : visible x = true
    · rw [if_pos hv] at h
      cases hg : get_user_profiles_by_ids visible xs with
      | ok us => rw [hg] at h; simp at h
      | error e2 =>
        rw [hg] at h
        simp at h
        obtain ⟨y, hy, hvy, he⟩ := ih (h ▸ hg)
        exact ⟨y, List.mem_cons_of_mem x hy, hvy, he⟩
    · rw [if_neg hv] at h
      simp at h
      exact ⟨x, List.mem_cons_self x xs, by simpa using hv, h.symm⟩

lemma fvdd_error_classify (env : Env) (d : DraftDict) (up : ℤ) (e : String)
    (h : further_validated_draft_dict env d up = Except.error e) :
    (e = "Content must not contain null bytes" ∧
      nullChar ∈ truncate_body env d.content) ∨
    e = "Timestamp must not be negative." ∨
    (d.type = "stream" ∧ (e = "Topic must not contain null bytes" ∨
      e = "Must specify exactly 1 stream ID for stream messages" ∨
      e = "Invalid stream id")) ∨
    (d.type = "private" ∧ ((∃ x : ℤ, e = "Invalid user ID " ++ toString x) ∨
      ∃ us, env.recipient_for_user_profiles us up = Except.error e)) := by
  by_cases h1 : nullChar ∈ truncate_body env d.content
  · rw [fvdd_content_null env d up h1] at h
    simp at h
    exact Or.inl ⟨h.symm, h1⟩
  · by_cases h2 : round6 (suppliedTimestamp env d) < 0
    · rw [fvdd_ts_neg env d up h1 h2] at h
      simp at h
      exact Or.inr (Or.inl h.symm)
    · by_cases ht : d.type = "stream"
      · by_cases h3 : nullChar ∈ truncate_topic env d.topic
        · rw [fvdd_stream_topic_null env d up h1 h2 ht h3] at h
          simp at h
          exact Or.inr (Or.inr (Or.inl ⟨ht, Or.inl h.symm⟩))
        · by_cases h4 : d.to.length ≠ 1
          · rw [fvdd_stream_card env d up h1 h2 ht h3 h4] at h
            simp at h
            exact Or.inr (Or.inr (Or.inl ⟨ht, Or.inr (Or.inl h.symm)⟩))
          · rw [fvdd_stream_resolve env d up h1 h2 ht h3 h4] at h
            cases ha : access_stream_by_id env d.to.headI with
            | ok r => rw [ha] at h; simp at h
            | error e2 =>
              rw [ha] at h
              simp at h
              unfold access_stream_by_id at ha
              by_cases h5 : (env.stream_exists d.to.headI &&
                  env.stream_accessible d.to.headI) = true
              · rw [if_pos h5] at ha; simp at ha
              · rw [if_neg h5] at ha
                simp at ha
                exact Or.inr (Or.inr (Or.inl ⟨ht, Or.inr (Or.inr (h ▸ ha.symm))⟩))
      · by_cases hp : d.type = "private" ∧ d.to.length ≠ 0
        · rw [fvdd_private_resolve env d up h1 h2 ht hp] at h
          cases hg : get_user_profiles_by_ids env.user_visible (pydedup d.to) with
          | error e2 =>
            simp only [hg] at h
            simp at h
            obtain ⟨x, _, _, he⟩ :=
              get_user_profiles_by_ids_error_shape env.user_visible (pydedup d.to) e2 hg
            exact Or.inr (Or.inr (Or.inr ⟨hp.1, Or.inl ⟨x, h ▸ he⟩⟩))
          | ok us =>
            simp only [hg] at h
            cases hr : env.recipient_for_user_profiles us up with
            | ok r => simp only [hr] at h; simp at h
            | error e2 =>
              simp only [hr] at h
              simp at h
              exact Or.inr (Or.inr (Or.inr ⟨hp.1, Or.inr ⟨us, h ▸ hr⟩⟩))
        · rw [fvdd_null_branch env d up h1 h2 ht hp] at h
          simp at h

lemma fvdd_ok_fields (env : Env) (d : DraftDict) (up : ℤ) (v : ValidatedDraft)
    (h : further_validated_draft_dict env d up = Except.ok v) :
    v.content = truncate_body env d.content ∧
    v.last_edit_time = round6 (suppliedTimestamp env d) ∧
    (d.type ≠ "stream" → v.topic = []) := by
  by_cases h1 : nullChar ∈ truncate_body env d.content
  · rw [fvdd_content_null env d up h1] at h; simp at h
  · by_cases h2 : round6 (suppliedTimestamp env d) < 0
    · rw [fvdd_ts_neg env d up h1 h2] at h; simp at h
    · by_cases ht : d.type = "stream"
      · by_cases h3 : nullChar ∈ truncate_topic env d.topic
        · rw [fvdd_stream_topic_null env d up h1 h2 ht h3] at h; simp at h
        · by_cases h4 : d.to.length ≠ 1
          · rw [fvdd_stream_card env d up h1 h2 ht h3 h4] at h; simp at h
          · rw [fvdd_stream_resolve env d up h1 h2 ht h3 h4] at h
            cases ha : access_stream_by_id env d.to.headI with
            | error e2 => rw [ha] at h; simp at h
            | ok r =>
              rw [ha] at h
              simp at h
              subst h
              exact ⟨rfl, rfl, fun hc => absurd ht hc⟩
      · by_cases hp : d.type = "private" ∧ d.to.length ≠ 0
        · rw [fvdd_private_resolve env d up h1 h2 ht hp] at h
          cases hg : get_user_profiles_by_ids env.user_visible (pydedup d.to) with
          | error e2 => simp only [hg] at h; simp at h
          | ok us =>
            simp only [hg] at h
            cases hr : env.recipient_for_user_profiles us up with
            | error e2 => simp only [hr] at h; simp at h
            | ok r =>
              simp only [hr] at h
              simp at h
              subst h
              exact ⟨rfl, rfl, fun _ => rfl⟩
        · rw [fvdd_null_branch env d up h1 h2 ht hp] at h
          simp at h
          subst h
          exact ⟨rfl, rfl, fun _ => rfl⟩

lemma further_all_error (env : Env) (up : ℤ) (dds : List DraftDict) (k : ℕ) (e : String)
    (hk : k < dds.length)
    (hok : ∀ d ∈ dds.take k, ∃ v, further_validated_draft_dict env d up = Except.ok v)
    (hfail : further_validated_draft_dict env (dds.get ⟨k, hk⟩) up = Except.error e) :
    further_all env up dds = Except.error e := by
  induction dds generalizing k with
  | nil => exact absurd hk (Nat.not_lt_zero k)
  | cons d rest ih =>
    cases k with
    | zero =>
      unfold further_all
      simp only [List.get] at hfail
      rw [hfail]
    | succ j =>
      obtain ⟨v, hv⟩ := hok d (by simp [List.take_succ_cons])
      unfold further_all
      rw [hv]
      have hj : j < rest.length := Nat.lt_of_succ_lt_succ hk
      rw [ih j hj (fun d2 hd2 => hok d2 (by simp [List.take_succ_cons, hd2]))
        (by simpa using hfail)]

lemma further_all_ok (env : Env) (up : ℤ) (dds : List DraftDict)
    (h : ∀ d ∈ dds, ∃ v, further_validated_draft_dict env d up = Except.ok v) :
    ∃ vs, further_all env up dds = Except.ok vs ∧ vs.length = dds.length := by
  induction dds with
  | nil => exact ⟨[], rfl, rfl⟩
  | cons d rest ih =>
    obtain ⟨v, hv⟩ := h d (List.mem_cons_self d rest)
    obtain ⟨vs, hvs, hlen⟩ := ih (fun d2 hd2 => h d2 (List.mem_cons_of_mem d hd2))
    refine ⟨v :: vs, ?_, by simp [hlen]⟩
    unfold further_all
    rw [hv, hvs]

lemma bulk_create_length (n : ℤ) (objs : List Draft) :
    (bulk_create n objs).length = objs.length := by
  induction objs generalizing n with
  | nil => rfl
  | cons d ds ih => simp [bulk_create, ih]

lemma bulk_create_map_snd (n : ℤ) (objs : List Draft) :
    (bulk_create n objs).map Prod.snd = objs := by
  induction objs generalizing n with
  | nil => rfl
  | cons d ds ih => simp [bulk_create, ih]

lemma generated_ids_succ (n : ℤ) (m : ℕ) :
    generated_ids n (m + 1) = n :: generated_ids (n + 1) m := by
  unfold generated_ids
  rw [List.range_succ_eq_map, List.map_cons, List.map_map]
  congr 1
  · simp
  · apply List.map_congr_left
    intro i _
    simp only [Function.comp_apply]
    push_cast
    ring

lemma generated_ids_nodup (n : ℤ) (m : ℕ) : (generated_ids n m).Nodup := by
  unfold generated_ids
  refine List.Nodup.map ?_ (List.nodup_range m)
  intro a b hab
  simp only at hab
  omega

lemma bulk_create_map_fst (n : ℤ) (objs : List Draft) :
    (bulk_create n objs).map Prod.fst = generated_ids n objs.length := by
  induction objs generalizing n with
  | nil => rfl
  | cons d ds ih =>
    rw [List.length_cons, generated_ids_succ]
    simp [bulk_create, ih]

lemma bulk_create_ids_nodup (n : ℤ) (objs : List Draft) :
    ((bulk_create n objs).map Prod.fst).Nodup := by
  rw [bulk_create_map_fst]
  exact generated_ids_nodup n objs.length

lemma fvdd_topic_irrelevant (env : Env) (d : DraftDict) (up : ℤ) (t2 : List Char)
    (ht : d.type ≠ "stream") :
    further_validated_draft_dict env {d with topic := t2} up =
      further_validated_draft_dict env d up := by
  unfold further_validated_draft_dict
  simp [ht, suppliedTimestamp]

lemma fvdd_env_invariant (env env2 : Env) (d : DraftDict) (up : ℤ)
    (hc : d.type = "" ∨ (d.type = "private" ∧ d.to = []))
    (hm : env2.MAX_MESSAGE_LENGTH = env.MAX_MESSAGE_LENGTH)
    (hn : env2.now = env.now) :
    further_validated_draft_dict env2 d up = further_validated_draft_dict env d up := by
  have htb : truncate_body env2 d.content = truncate_body env d.content := by
    unfold truncate_body
    rw [hm]
  have hst : suppliedTimestamp env2 d = suppliedTimestamp env d := by
    unfold suppliedTimestamp
    cases d.timestamp with
    | some t => rfl
    | none => exact hn
  have ht : d.type ≠ "stream" := by
    rcases hc with h | ⟨h, _⟩ <;> · rw [h]; decide
  have hp : ¬ (d.type = "private" ∧ d.to.length ≠ 0) := by
    rcases hc with h | ⟨h, h2⟩
    · rintro ⟨hpp, _⟩
      rw [h] at hpp
      exact absurd hpp (by decide)
    · rintro ⟨_, hl⟩
      rw [h2] at hl
      exact hl rfl
  by_cases h1 : nullChar ∈ truncate_body env d.content
  · rw [fvdd_content_null env d up h1,
      fvdd_content_null env2 d up (by rw [htb]; exact h1)]
  · by_cases h2 : round6 (suppliedTimestamp env d) < 0
    · rw [fvdd_ts_neg env d up h1 h2,
        fvdd_ts_neg env2 d up (by rw [htb]; exact h1) (by rw [hst]; exact h2)]
    · rw [fvdd_null_branch env d up h1 h2 ht hp,
        fvdd_null_branch env2 d up (by rw [htb]; exact h1) (by rw [hst]; exact h2) ht hp,
        htb, hst]

lemma sampleEnv_derive_ne (m : String) (us : List ℤ) (s : ℤ) :
    sampleEnv.recipient_for_user_profiles us s ≠ Except.error m := by
  simp [sampleEnv]

/-- C1: if normalization of some descriptor fails while every earlier
descriptor in the batch normalizes, the whole request aborts with that first
error and zero drafts are persisted. -/
theorem create_drafts_aborts_on_first_error (env : Env) (up : ℤ)
    (dds : List DraftDict) (k : ℕ) (e : String) (hk : k < dds.length)
    (hok : ∀ d ∈ dds.take k, ∃ v, further_validated_draft_dict env d up = Except.ok v)
    (hfail : further_validated_draft_dict env (dds.get ⟨k, hk⟩) up = Except.error e) :
    create_drafts env up dds = Except.error e ∧
    persisted_drafts (create_drafts env up dds) = [] := by
  have hall := further_all_error env up dds k e hk hok hfail
  have hcd : create_drafts env up dds = Except.error e := by
    unfold create_drafts
    rw [hall]
  exact ⟨hcd, by rw [hcd]; rfl⟩

/-- C1 witness: a batch whose second descriptor has a null byte in content
aborts with that error and persists nothing, although the first descriptor
is valid and the third would fail differently. -/
theorem create_drafts_aborts_on_first_error_witness :
    create_drafts sampleEnv 1 [sampleStreamDraft, sampleNullContentDraft, sampleNegTsDraft] =
      Except.error "Content must not contain null bytes" ∧
    persisted_drafts (create_drafts sampleEnv 1
      [sampleStreamDraft, sampleNullContentDraft, sampleNegTsDraft]) = [] := by
  refine create_drafts_aborts_on_first_error sampleEnv 1 _ 1 _ (by decide) ?_ (by decide)
  intro d hd
  simp only [List.take, List.mem_singleton] at hd
  subst hd
  exact ⟨⟨some 1010, ['t'], ['h', 'i'], 5⟩, by decide⟩

/-- C2: when every descriptor of a batch normalizes, the batch is persisted
in one atomic write: one draft per descriptor in input order, each owned by
the requesting user, and the response ids are the freshly generated
identifiers in the same order, pairwise distinct. -/
theorem create_drafts_all_valid (env : Env) (up : ℤ) (dds : List DraftDict)
    (hok : ∀ d ∈ dds, ∃ v, further_validated_draft_dict env d up = Except.ok v) :
    ∃ vs created,
      further_all env up dds = Except.ok vs ∧
      create_drafts env up dds = Except.ok (created, created.map Prod.fst) ∧
      persisted_drafts (create_drafts env up dds) = created ∧
      created.length = dds.length ∧
      created.map Prod.snd = vs.map (fun v =>
        Draft.mk up v.recipient v.topic v.content v.last_edit_time) ∧
      (∀ p ∈ created, p.2.user_profile = up) ∧
      created.map Prod.fst = generated_ids env.next_id dds.length ∧
      (created.map Prod.fst).Nodup := by
  obtain ⟨vs, hvs, hlen⟩ := further_all_ok env up dds hok
  set objs := vs.map (fun v =>
    Draft.mk up v.recipient v.topic v.content v.last_edit_time) with hobjs
  have hcd : create_drafts env up dds =
      Except.ok (bulk_create env.next_id objs,
        (bulk_create env.next_id objs).map Prod.fst) := by
    unfold create_drafts
    rw [hvs]
  have hlen2 : objs.length = dds.length := by
    rw [hobjs, List.length_map, hlen]
  refine ⟨vs, bulk_create env.next_id objs, hvs, hcd, by rw [hcd]; rfl, ?_, ?_, ?_, ?_, ?_⟩
  · rw [bulk_create_length, hlen2]
  · rw [bulk_create_map_snd]
  · intro p hp
    have hmem : p.2 ∈ (bulk_create env.next_id objs).map Prod.snd :=
      List.mem_map_of_mem Prod.snd hp
    rw [bulk_create_map_snd, hobjs] at hmem
    obtain ⟨v, _, hv⟩ := List.mem_map.mp hmem
    rw [← hv]
  · rw [bulk_create_map_fst, hlen2]
  · exact bulk_create_ids_nodup env.next_id objs

/-- C2 witness: a two-descriptor batch persists two drafts owned by user 1
with sequential ids 7 and 8. -/
theorem create_drafts_all_valid_witness :
    ∃ vs created,
      further_all sampleEnv 1 [sampleStreamDraft, samplePrivateDraft] = Except.ok vs ∧
      create_drafts sampleEnv 1 [sampleStreamDraft, samplePrivateDraft] =
        Except.ok (created, created.map Prod.fst) ∧
      persisted_drafts (create_drafts sampleEnv 1 [sampleStreamDraft, samplePrivateDraft]) =
        created ∧
      created.length = [sampleStreamDraft, samplePrivateDraft].length ∧
      created.map Prod.snd = vs.map (fun v =>
        Draft.mk 1 v.recipient v.topic v.content v.last_edit_time) ∧
      (∀ p ∈ created, p.2.user_profile = 1) ∧
      created.map Prod.fst = generated_ids sampleEnv.next_id 2 ∧
      (created.map Prod.fst).Nodup := by
  refine create_drafts_all_valid sampleEnv 1 _ ?_
  intro d hd
  simp only [List.mem_cons, List.not_mem_nil, or_false] at hd
  rcases hd with rfl | rfl
  · exact ⟨⟨some 1010, ['t'], ['h', 'i'], 5⟩, by decide⟩
  · exact ⟨⟨some 7, [], ['h', 'i'], 5⟩, by decide⟩

/-- C3 (amended): the normalized timestamp of a successful descriptor equals
the supplied timestamp (or the current time when absent) rounded to
microsecond precision, and normalization fails with
"Timestamp must not be negative." whenever the rounded timestamp is
negative (the sign check runs on the already-rounded value). -/
theorem timestamp_rounded_then_checked (env : Env) (d : DraftDict) (up : ℤ) :
    (nullChar ∉ truncate_body env d.content →
      round6 (suppliedTimestamp env d) < 0 →
      further_validated_draft_dict env d up =
        Except.error "Timestamp must not be negative.") ∧
    (∀ v, further_validated_draft_dict env d up = Except.ok v →
      v.last_edit_time = round6 (suppliedTimestamp env d)) :=
  ⟨fun h1 h2 => fvdd_ts_neg env d up h1 h2,
   fun v hv => (fvdd_ok_fields env d up v hv).2.1⟩

/-- C3 counterexample: the supplied timestamp `-1/10^7` is negative, yet
normalization succeeds (it rounds to `0` before the sign check), contrary
to the claim that any negative supplied timestamp is rejected. -/
theorem negative_supplied_timestamp_accepted :
    sampleNegMicroDraft.timestamp = some (mkRat (-1) 10000000) ∧
    mkRat (-1) 10000000 < 0 ∧
    further_validated_draft_dict sampleEnv sampleNegMicroDraft 1 =
      Except.ok ⟨none, [], ['a'], 0⟩ ∧
    further_validated_draft_dict sampleEnv sampleNegMicroDraft 1 ≠
      Except.error "Timestamp must not be negative." :=
  ⟨rfl, by decide, by decide, by decide⟩

/-- C3 witness: a supplied timestamp of `-3` is rejected, and the stream
draft with timestamp `5` ends up with normalized timestamp `round6 5`. -/
theorem timestamp_rounded_then_checked_witness :
    further_validated_draft_dict sampleEnv sampleNegTsDraft 1 =
      Except.error "Timestamp must not be negative." ∧
    (⟨some 1010, ['t'], ['h', 'i'], 5⟩ : ValidatedDraft).last_edit_time =
      round6 (suppliedTimestamp sampleEnv sampleStreamDraft) :=
  ⟨(timestamp_rounded_then_checked sampleEnv sampleNegTsDraft 1).1 (by decide) (by decide),
   (timestamp_rounded_then_checked sampleEnv sampleStreamDraft 1).2 _ (by decide)⟩

/-- C4: in the stream branch the checks run in order: null byte in the
truncated topic first, then the cardinality of `to`, then stream
resolution, where a missing stream and an inaccessible stream surface the
identical error "Invalid stream id". -/
theorem stream_branch_check_order (env : Env) (d : DraftDict) (up : ℤ)
    (h1 : nullChar ∉ truncate_body env d.content)
    (h2 : ¬ round6 (suppliedTimestamp env d) < 0)
    (ht : d.type = "stream") :
    (nullChar ∈ truncate_topic env d.topic →
      further_validated_draft_dict env d up =
        Except.error "Topic must not contain null bytes") ∧
    (nullChar ∉ truncate_topic env d.topic → d.to.length ≠ 1 →
      further_validated_draft_dict env d up =
        Except.error "Must specify exactly 1 stream ID for stream messages") ∧
    (∀ sid : ℤ, nullChar ∉ truncate_topic env d.topic → d.to = [sid] →
      (env.stream_exists sid = false ∨ env.stream_accessible sid = false) →
      further_validated_draft_dict env d up = Except.error "Invalid stream id") := by
  refine ⟨fun h3 => fvdd_stream_topic_null env d up h1 h2 ht h3,
    fun h3 h4 => fvdd_stream_card env d up h1 h2 ht h3 h4, ?_⟩
  intro sid h3 hto hbad
  have h4 : ¬ d.to.length ≠ 1 := by rw [hto]; simp
  rw [fvdd_stream_resolve env d up h1 h2 ht h3 h4, hto]
  have ha : access_stream_by_id env sid = Except.error "Invalid stream id" := by
    unfold access_stream_by_id
    rw [if_neg]
    rcases hbad with hb | hb <;> simp [hb]
  simpa [List.headI] using congrArg (fun r =>
    match r with
    | Except.error e => (Except.error e : Except String ValidatedDraft)
    | Except.ok recipient =>
      Except.ok ⟨some recipient, truncate_topic env d.topic,
        truncate_body env d.content,
        timestamp_to_datetime (round6 (suppliedTimestamp env d))⟩) ha

/-- C4 witness: with the topic-null, wrong-cardinality and inaccessible
stream descriptors the three errors appear, in particular stream 11 (which
does not exist in the sample deployment) yields "Invalid stream id". -/
theorem stream_branch_check_order_witness :
    further_validated_draft_dict sampleEnv sampleTopicNullStreamDraft 1 =
      Except.error "Topic must not contain null bytes" ∧
    further_validated_draft_dict sampleEnv sampleTwoStreamDraft 1 =
      Except.error "Must specify exactly 1 stream ID for stream messages" ∧
    further_validated_draft_dict sampleEnv sampleBadStreamDraft 1 =
      Except.error "Invalid stream id" :=
  ⟨(stream_branch_check_order sampleEnv sampleTopicNullStreamDraft 1
      (by decide) (by decide) rfl).1 (by decide),
   (stream_branch_check_order sampleEnv sampleTwoStreamDraft 1
      (by decide) (by decide) rfl).2.1 (by decide) (by decide),
   (stream_branch_check_order sampleEnv sampleBadStreamDraft 1
      (by decide) (by decide) rfl).2.2 11 (by decide) rfl (Or.inl (by decide))⟩

/-- C5: normalization fails with "Content must not contain null bytes"
exactly when the content truncated to the platform limit contains a null
byte; in particular a null byte beyond the truncation limit is harmless
(assuming the recipient deriver does not itself produce this message). -/
theorem content_null_error_iff (env : Env) (d : DraftDict) (up : ℤ)
    (hder : ∀ us s, env.recipient_for_user_profiles us s ≠
      Except.error "Content must not contain null bytes") :
    (further_validated_draft_dict env d up =
        Except.error "Content must not contain null bytes" ↔
      nullChar ∈ truncate_body env d.content) := by
  constructor
  · intro h
    rcases fvdd_error_classify env d up _ h with ⟨_, hm⟩ | he | ⟨_, he⟩ | ⟨_, he | he⟩
    · exact hm
    · exact absurd he (by decide)
    · rcases he with he | he | he <;> exact absurd he (by decide)
    · obtain ⟨x, hx⟩ := he
      exact absurd hx.symm (invalid_user_msg_ne_of_head (by decide) (toString x))
    · obtain ⟨us, hus⟩ := he
      exact absurd hus (hder us up)
  · exact fvdd_content_null env d up

/-- C5 witness: in the sample deployment (content limit 5) the descriptor
with a null byte in position 2 fails with the content error, and one whose
only null byte sits beyond the limit does not. -/
theorem content_null_error_iff_witness :
    (∀ us s, sampleEnv.recipient_for_user_profiles us s ≠
      Except.error "Content must not contain null bytes") ∧
    (further_validated_draft_dict sampleEnv sampleNullContentDraft 1 =
        Except.error "Content must not contain null bytes" ↔
      nullChar ∈ truncate_body sampleEnv sampleNullContentDraft.content) ∧
    (further_validated_draft_dict sampleEnv
        ⟨"", [], [], ['a', 'b', 'c', 'd', 'e', nullChar], some 5⟩ 1 =
        Except.error "Content must not contain null bytes" ↔
      nullChar ∈ truncate_body sampleEnv ['a', 'b', 'c', 'd', 'e', nullChar]) :=
  ⟨fun us s => sampleEnv_derive_ne _ us s,
   content_null_error_iff sampleEnv sampleNullContentDraft 1
     (fun us s => sampleEnv_derive_ne _ us s),
   content_null_error_iff sampleEnv _ 1 (fun us s => sampleEnv_derive_ne _ us s)⟩

/-- C6: a private draft with recipients resolves every listed user and
stores the recipient derived from the deduplicated set of target users,
with the topic forced to the empty string whatever the input topic was. -/
theorem private_draft_topic_empty_recipient_derived (env : Env) (d : DraftDict)
    (up : ℤ)
    (h1 : nullChar ∉ truncate_body env d.content)
    (h2 : ¬ round6 (suppliedTimestamp env d) < 0)
    (ht : d.type = "private") (hne : d.to ≠ [])
    (hvis : ∀ x ∈ d.to, env.user_visible x = true)
    (r : ℤ)
    (hr : env.recipient_for_user_profiles (pydedup d.to) up = Except.ok r) :
    further_validated_draft_dict env d up =
      Except.ok ⟨some r, [], truncate_body env d.content,
        round6 (suppliedTimestamp env d)⟩ := by
  have hts : d.type ≠ "stream" := by rw [ht]; decide
  have hp : d.type = "private" ∧ d.to.length ≠ 0 :=
    ⟨ht, fun h0 => hne (List.length_eq_zero.mp h0)⟩
  rw [fvdd_private_resolve env d up h1 h2 hts hp]
  have hg : get_user_profiles_by_ids env.user_visible (pydedup d.to) =
      Except.ok (pydedup d.to) :=
    get_user_profiles_by_ids_ok _ _ (fun x hx => hvis x ((mem_pydedup x d.to).mp hx))
  simp [hg, hr, timestamp_to_datetime]

/-- C6 witness: the private draft to users 3, 4, 4 stores topic `[]` and the
recipient derived from the deduplicated user set `[3, 4]`. -/
theorem private_draft_topic_empty_recipient_derived_witness :
    sampleEnv.recipient_for_user_profiles (pydedup samplePrivateDraft.to) 1 =
      Except.ok 7 ∧
    further_validated_draft_dict sampleEnv samplePrivateDraft 1 =
      Except.ok ⟨some 7, [], truncate_body sampleEnv samplePrivateDraft.content,
        round6 (suppliedTimestamp sampleEnv samplePrivateDraft)⟩ :=
  ⟨by decide,
   private_draft_topic_empty_recipient_derived sampleEnv samplePrivateDraft 1
     (by decide) (by decide) rfl (by decide) (by decide) 7 (by decide)⟩

/-- C7: a private draft whose `to` list holds an ID that is not a visible
user fails with "Invalid user ID <id>" naming the first invalid ID in input
order. -/
theorem private_draft_invalid_user_error (env : Env) (d : DraftDict) (up : ℤ)
    (h1 : nullChar ∉ truncate_body env d.content)
    (h2 : ¬ round6 (suppliedTimestamp env d) < 0)
    (ht : d.type = "private") (hne : d.to ≠ [])
    (bad : ℤ)
    (hbad : d.to.find? (fun x => !env.user_visible x) = some bad) :
    further_validated_draft_dict env d up =
      Except.error ("Invalid user ID " ++ toString bad) := by
  have hts : d.type ≠ "stream" := by rw [ht]; decide
  have hp : d.type = "private" ∧ d.to.length ≠ 0 :=
    ⟨ht, fun h0 => hne (List.length_eq_zero.mp h0)⟩
  rw [fvdd_private_resolve env d up h1 h2 hts hp]
  have hg : get_user_profiles_by_ids env.user_visible (pydedup d.to) =
      Except.error ("Invalid user ID " ++ toString bad) :=
    get_user_profiles_by_ids_error _ _ bad (by rw [find?_pydedup]; exact hbad)
  simp [hg]

/-- C7 witness: user IDs 99 and 98 are not visible in the sample
deployment; the draft to `[3, 99, 98]` fails naming 99, the first invalid
ID. -/
theorem private_draft_invalid_user_error_witness :
    sampleInvalidUserDraft.to.find? (fun x => !sampleEnv.user_visible x) = some 99 ∧
    further_validated_draft_dict sampleEnv sampleInvalidUserDraft 1 =
      Except.error ("Invalid user ID " ++ toString (99 : ℤ)) :=
  ⟨by decide,
   private_draft_invalid_user_error sampleEnv sampleInvalidUserDraft 1
     (by decide) (by decide) rfl (by decide) 99 (by decide)⟩

/-- C8: for a descriptor of type `""`, or of type `"private"` with an empty
`to` list, the outcome does not depend on the stream, user, recipient or
persistence collaborators (only on the content limit and the clock), and a
successful normalization stores a null recipient and an empty topic. -/
theorem no_recipient_no_resolution (env : Env) (d : DraftDict) (up : ℤ)
    (hc : d.type = "" ∨ (d.type = "private" ∧ d.to = [])) :
    (∀ env2 : Env, env2.MAX_MESSAGE_LENGTH = env.MAX_MESSAGE_LENGTH →
      env2.now = env.now →
      further_validated_draft_dict env2 d up = further_validated_draft_dict env d up) ∧
    (nullChar ∉ truncate_body env d.content →
      ¬ round6 (suppliedTimestamp env d) < 0 →
      further_validated_draft_dict env d up =
        Except.ok ⟨none, [], truncate_body env d.content,
          round6 (suppliedTimestamp env d)⟩) := by
  have ht : d.type ≠ "stream" := by
    rcases hc with h | ⟨h, _⟩ <;> · rw [h]; decide
  have hp : ¬ (d.type = "private" ∧ d.to.length ≠ 0) := by
    rcases hc with h | ⟨h, h2⟩
    · rintro ⟨hpp, _⟩
      rw [h] at hpp
      exact absurd hpp (by decide)
    · rintro ⟨_, hl⟩
      rw [h2] at hl
      exact hl rfl
  refine ⟨fun env2 hm hn => fvdd_env_invariant env env2 d up hc hm hn, fun h1 h2 => ?_⟩
  rw [fvdd_null_branch env d up h1 h2 ht hp]
  rfl

/-- C8 witness: the sample empty-type draft evaluates identically under an
environment with entirely different collaborators (no streams, no visible
users, failing deriver, other topic limit) and stores a null recipient and
empty topic. -/
theorem no_recipient_no_resolution_witness :
    further_validated_draft_dict sampleEnvAlt sampleEmptyDraft 1 =
      further_validated_draft_dict sampleEnv sampleEmptyDraft 1 ∧
    further_validated_draft_dict sampleEnv sampleEmptyDraft 1 =
      Except.ok ⟨none, [], truncate_body sampleEnv sampleEmptyDraft.content,
        round6 (suppliedTimestamp sampleEnv sampleEmptyDraft)⟩ :=
  ⟨(no_recipient_no_resolution sampleEnv sampleEmptyDraft 1 (Or.inl rfl)).1
      sampleEnvAlt rfl rfl,
   (no_recipient_no_resolution sampleEnv sampleEmptyDraft 1 (Or.inl rfl)).2
      (by decide) (by decide)⟩

/-- C9: for a non-stream descriptor the input topic is irrelevant: replacing
it changes nothing, the topic null-byte error can never be raised (assuming
the recipient deriver does not itself produce that message), and a
successful normalization stores an empty topic. -/
theorem non_stream_topic_ignored (env : Env) (d : DraftDict) (up : ℤ)
    (ht : d.type ≠ "stream")
    (hder : ∀ us s, env.recipient_for_user_profiles us s ≠
      Except.error "Topic must not contain null bytes") :
    (∀ t2, further_validated_draft_dict env {d with topic := t2} up =
      further_validated_draft_dict env d up) ∧
    further_validated_draft_dict env d up ≠
      Except.error "Topic must not contain null bytes" ∧
    (∀ v, further_validated_draft_dict env d up = Except.ok v → v.topic = []) := by
  refine ⟨fun t2 => fvdd_topic_irrelevant env d up t2 ht, ?_,
    fun v hv => (fvdd_ok_fields env d up v hv).2.2 ht⟩
  intro h
  rcases fvdd_error_classify env d up _ h with ⟨hm, _⟩ | he | ⟨hts, _⟩ | ⟨_, he | he⟩
  · exact absurd hm (by decide)
  · exact absurd he (by decide)
  · exact ht hts
  · obtain ⟨x, hx⟩ := he
    exact absurd hx.symm (invalid_user_msg_ne_of_head (by decide) (toString x))
  · obtain ⟨us, hus⟩ := he
    exact absurd hus (hder us up)

/-- C9 witness: the private draft whose input topic holds a null byte does
not raise the topic error; replacing its topic leaves the outcome
unchanged. -/
theorem non_stream_topic_ignored_witness :
    further_validated_draft_dict sampleEnv
        {sampleNullTopicPrivateDraft with topic := ['z']} 1 =
      further_validated_draft_dict sampleEnv sampleNullTopicPrivateDraft 1 ∧
    further_validated_draft_dict sampleEnv sampleNullTopicPrivateDraft 1 ≠
      Except.error "Topic must not contain null bytes" :=
  ⟨(non_stream_topic_ignored sampleEnv sampleNullTopicPrivateDraft 1 (by decide)
      (fun us s => sampleEnv_derive_ne _ us s)).1 ['z'],
   (non_stream_topic_ignored sampleEnv sampleNullTopicPrivateDraft 1 (by decide)
      (fun us s => sampleEnv_derive_ne _ us s)).2.1⟩

/-- C10: a descriptor of type `""` is processed exactly as if its `to` list
were empty; its IDs are never looked up and a successful normalization
stores a null recipient and empty topic. -/
theorem empty_type_ignores_to (env : Env) (d : DraftDict) (up : ℤ)
    (ht : d.type = "") :
    further_validated_draft_dict env d up =
      further_validated_draft_dict env {d with «to» := []} up ∧
    (∀ v, further_validated_draft_dict env d up = Except.ok v →
      v.recipient = none ∧ v.topic = []) := by
  have hts : d.type ≠ "stream" := by rw [ht]; decide
  have hp : ¬ (d.type = "private" ∧ d.to.length ≠ 0) := by
    rintro ⟨hpp, _⟩
    rw [ht] at hpp
    exact absurd hpp (by decide)
  have hts2 : ({d with «to» := ([] : List ℤ)} : DraftDict).type ≠ "stream" := hts
  have hp2 : ¬ (({d with «to» := ([] : List ℤ)} : DraftDict).type = "private" ∧
      ({d with «to» := ([] : List ℤ)} : DraftDict).to.length ≠ 0) := by
    rintro ⟨_, hl⟩
    exact hl rfl
  constructor
  · by_cases h1 : nullChar ∈ truncate_body env d.content
    · rw [fvdd_content_null env d up h1,
        fvdd_content_null env ({d with «to» := []}) up h1]
    · by_cases h2 : round6 (suppliedTimestamp env d) < 0
      · rw [fvdd_ts_neg env d up h1 h2,
          fvdd_ts_neg env ({d with «to» := []}) up h1 h2]
      · rw [fvdd_null_branch env d up h1 h2 hts hp,
          fvdd_null_branch env ({d with «to» := []}) up h1 h2 hts2 hp2]
        rfl
  · intro v hv
    by_cases h1 : nullChar ∈ truncate_body env d.content
    · rw [fvdd_content_null env d up h1] at hv
      simp at hv
    · by_cases h2 : round6 (suppliedTimestamp env d) < 0
      · rw [fvdd_ts_neg env d up h1 h2] at hv
        simp at hv
      · rw [fvdd_null_branch env d up h1 h2 hts hp] at hv
        simp at hv
        subst hv
        exact ⟨rfl, rfl⟩

/-- C10 witness: the empty-type draft whose `to` holds the nonexistent user
99 is processed as if `to` were empty and succeeds with a null recipient. -/
theorem empty_type_ignores_to_witness :
    further_validated_draft_dict sampleEnv sampleEmptyTypeToDraft 1 =
      further_validated_draft_dict sampleEnv
        {sampleEmptyTypeToDraft with «to» := []} 1 ∧
    ((⟨none, [], ['o', 'k'], 5⟩ : ValidatedDraft).recipient = none ∧
      (⟨none, [], ['o', 'k'], 5⟩ : ValidatedDraft).topic = []) :=
  ⟨(empty_type_ignores_to sampleEnv sampleEmptyTypeToDraft 1 rfl).1,
   (empty_type_ignores_to sampleEnv sampleEmptyTypeToDraft 1 rfl).2
     ⟨none, [], ['o', 'k'], 5⟩ (by decide)⟩
